import Mathlib

/-!
Shallow embedding of the persistent leveling-data store of the VixenVera Discord bot
(`src/database.js`, `src/config.js` and the per-guild-table variant of the database
module), together with theorems checking the natural-language specification against it.

Modelling conventions:
* JavaScript numbers are modelled as real numbers (`ℝ`); integer-valued data such as
  levels and counters use `ℕ`/`ℤ`.
* A JavaScript object field that is absent (read as `undefined`) is modelled with
  `Option`; the JS comparison `a < undefined`, which evaluates to `false`, is modelled
  by `jsLtOpt`.
* SQL statements acting on a single row keyed by `(userId, guildId)` are modelled as
  functions on that row's record; tables used by set-level queries are lists of rows.
-/

set_option maxHeartbeats 1600000

open scoped Classical

namespace VixenVera

/-- XP-system configuration: the `xp` block of `config.js`.  Fields that the shipped
configuration file does not define (`maxLevel`, `useCustomThresholds`,
`customLevelThresholds`, `interpolateXP`) are modelled as `Option`/`false` so that the
`undefined` accesses of the source are represented faithfully. -/
structure XpConfig where
  baseXP : ℝ
  curve : ℝ
  maxLevel : Option ℕ
  useCustomThresholds : Bool
  customLevelThresholds : Option (List (ℕ × ℝ))
  interpolateXP : Bool

/-- The shipped configuration from `config.js`: `baseXP: 100`, `curve: 1.5`, and no
`maxLevel`, `useCustomThresholds`, `customLevelThresholds` or `interpolateXP` keys. -/
noncomputable def shippedConfig : XpConfig :=
  { baseXP := 100
    curve := 3 / 2
    maxLevel := none
    useCustomThresholds := false
    customLevelThresholds := none
    interpolateXP := false }

/-- Models the JS expression `config.xp.maxLevel || 100` (both `undefined` and `0` are
falsy in JS, so both fall back to `100`). -/
def maxLevelOf (cfg : XpConfig) : ℕ :=
  match cfg.maxLevel with
  | none => 100
  | some 0 => 100
  | some (n + 1) => n + 1

/-- Models the JS comparison `n < m` where `m` may be `undefined`
(`config.xp.maxLevel` in `sacrificeUser`): comparing with `undefined` yields `false`. -/
def jsLtOpt (n : ℕ) : Option ℕ → Bool
  | none => false
  | some m => decide (n < m)

/-- Threshold-table keys as produced by `Object.keys(...).map(parseInt).sort((a,b) => a-b)`
in `xpForLevel`: the defined levels in ascending order. -/
def definedLevels (tbl : List (ℕ × ℝ)) : List ℕ :=
  (tbl.map Prod.fst).mergeSort (fun a b => decide (a ≤ b))

/-- The `for` loop of `xpForLevel` that scans adjacent defined levels for the first pair
`(lo, hi)` with `lo ≤ level ≤ hi`. -/
def findLevelBounds (level : ℕ) : List ℕ → Option (ℕ × ℕ)
  | a :: b :: rest =>
    if a ≤ level ∧ level ≤ b then some (a, b) else findLevelBounds level (b :: rest)
  | _ => none

/-- Threshold lookup `config.xp.customLevelThresholds[l]`; the `getD 0` default models a
lookup that the source never performs on a missing key on any path we reason about. -/
def thresholdXp (tbl : List (ℕ × ℝ)) (l : ℕ) : ℝ :=
  (tbl.lookup l).getD 0

/-- The interpolation branch of `xpForLevel` (active only when custom thresholds are
configured together with `interpolateXP`). -/
noncomputable def interpolatedXpForLevel (tbl : List (ℕ × ℝ)) (level : ℕ) : ℝ :=
  let levels := definedLevels tbl
  let lowerLevel := (findLevelBounds level levels).elim (levels.headD 0) Prod.fst
  let upperLevel := (findLevelBounds level levels).elim (levels.getLastD 0) Prod.snd
  if level < lowerLevel then
    (⌊((level : ℝ) / (lowerLevel : ℝ)) * thresholdXp tbl lowerLevel⌋ : ℤ)
  else if upperLevel < level then
    thresholdXp tbl upperLevel
  else
    let lowerXP := thresholdXp tbl lowerLevel
    let upperXP := thresholdXp tbl upperLevel
    (⌊lowerXP + (upperXP - lowerXP) * ((level : ℝ) - (lowerLevel : ℝ)) /
        ((upperLevel : ℝ) - (lowerLevel : ℝ))⌋ : ℤ)

/-- Embedding of `xpForLevel(level)` from `database.js`: clamp the level to
`maxLevel`, use an exact custom-threshold entry if one exists, interpolate if enabled,
and otherwise fall back to the formula `baseXP * Math.pow(level, curve)` — note that
the source applies no `Math.floor` on the formula path. -/
noncomputable def xpForLevel (cfg : XpConfig) (level0 : ℕ) : ℝ :=
  let level := min level0 (maxLevelOf cfg)
  match cfg.customLevelThresholds with
  | some tbl =>
    if cfg.useCustomThresholds then
      match tbl.lookup level with
      | some xp => xp
      | none =>
        if cfg.interpolateXP then interpolatedXpForLevel tbl level
        else cfg.baseXP * (level : ℝ) ^ cfg.curve
    else cfg.baseXP * (level : ℝ) ^ cfg.curve
  | none => cfg.baseXP * (level : ℝ) ^ cfg.curve

/-- The `while (level < maxLevel && xp >= this.xpForLevel(level + 1)) level++` loop of
`calculateLevel`, with explicit fuel; starting from level `0` with fuel `maxLevel` the
fuel never runs out before the guard `level < maxLevel` fails. -/
noncomputable def calcLoop (cfg : XpConfig) (xp : ℝ) : ℕ → ℕ → ℕ
  | level, 0 => level
  | level, fuel + 1 =>
    if level < maxLevelOf cfg ∧ xpForLevel cfg (level + 1) ≤ xp then
      calcLoop cfg xp (level + 1) fuel
    else level

/-- The `for (const { level, requiredXP } of levelData)` scan of `calculateLevel`:
record the level while `xp >= requiredXP`, break at the first failure. -/
noncomputable def scanThresholdLevels (xp : ℝ) : List (ℕ × ℝ) → ℕ → ℕ
  | [], acc => acc
  | (l, req) :: rest, acc =>
    if req ≤ xp then scanThresholdLevels xp rest l else acc

/-- The interpolation `for` loop of `calculateLevel`: find the first adjacent pair of
sorted threshold entries with `lower.requiredXP ≤ xp < upper.requiredXP`. -/
noncomputable def findXpBounds (xp : ℝ) : List (ℕ × ℝ) → Option ((ℕ × ℝ) × (ℕ × ℝ))
  | a :: b :: rest =>
    if a.2 ≤ xp ∧ xp < b.2 then some (a, b) else findXpBounds xp (b :: rest)
  | _ => none

/-- Embedding of `calculateLevel(xp)` from `database.js`: with custom thresholds, scan
the sorted table (with optional interpolation); otherwise run the formula-based
while loop bounded by `maxLevel`. -/
noncomputable def calculateLevel (cfg : XpConfig) (xp : ℝ) : ℕ :=
  match cfg.customLevelThresholds with
  | some tbl =>
    if cfg.useCustomThresholds then
      let levelData := tbl.mergeSort (fun a b => decide (a.1 ≤ b.1))
      let userLevel := scanThresholdLevels xp levelData 0
      if cfg.interpolateXP ∧ levelData ≠ [] ∧ (levelData.headD (0, 0)).2 ≤ xp then
        match findXpBounds xp levelData with
        | some ((ll, lreq), (ul, ureq)) =>
          (⌊(ll : ℝ) + ((ul : ℝ) - (ll : ℝ)) * (xp - lreq) / (ureq - lreq)⌋ : ℤ).toNat
        | none => min userLevel (maxLevelOf cfg)
      else min userLevel (maxLevelOf cfg)
    else calcLoop cfg xp 0 (maxLevelOf cfg)
  | none => calcLoop cfg xp 0 (maxLevelOf cfg)

lemma maxLevelOf_shipped : maxLevelOf shippedConfig = 100 := rfl

lemma rpow_three_halves {x : ℝ} (hx : 0 ≤ x) :
    x ^ ((3 : ℝ) / 2) = Real.sqrt (x ^ 3) := by
  have h1 : (3 : ℝ) / 2 = (3 : ℝ) * (1 / 2) := by ring
  have h2 : (3 : ℝ) = ((3 : ℕ) : ℝ) := by norm_num
  rw [h1, Real.rpow_mul hx, h2, Real.rpow_natCast, Real.sqrt_eq_rpow]

lemma xpForLevel_shipped (l : ℕ) (hl : l ≤ 100) :
    xpForLevel shippedConfig l = 100 * (l : ℝ) ^ ((3 : ℝ) / 2) := by
  have hmin : min l (maxLevelOf shippedConfig) = l := by
    rw [maxLevelOf_shipped]
    exact Nat.min_eq_left hl
  show shippedConfig.baseXP * ((min l (maxLevelOf shippedConfig) : ℕ) : ℝ) ^ shippedConfig.curve
      = 100 * (l : ℝ) ^ ((3 : ℝ) / 2)
  rw [hmin]
  rfl

lemma xpForLevel_shipped_sqrt (l : ℕ) (hl : l ≤ 100) :
    xpForLevel shippedConfig l = Real.sqrt (10000 * (l : ℝ) ^ 3) := by
  rw [xpForLevel_shipped l hl, rpow_three_halves (by positivity : (0 : ℝ) ≤ (l : ℝ))]
  rw [show (10000 : ℝ) * (l : ℝ) ^ 3 = 100 ^ 2 * (l : ℝ) ^ 3 by norm_num]
  rw [Real.sqrt_mul (by positivity) ((l : ℝ) ^ 3),
    Real.sqrt_sq (by norm_num : (0 : ℝ) ≤ 100)]

lemma xpForLevel_shipped_le_iff (l : ℕ) (hl : l ≤ 100) {x : ℝ} (hx : 0 ≤ x) :
    xpForLevel shippedConfig l ≤ x ↔ 10000 * (l : ℝ) ^ 3 ≤ x ^ 2 := by
  rw [xpForLevel_shipped_sqrt l hl, Real.sqrt_le_left hx]

lemma shipped_le (l : ℕ) (hl : l ≤ 100) (x : ℝ) (hx : 0 ≤ x)
    (h : 10000 * (l : ℝ) ^ 3 ≤ x ^ 2) : xpForLevel shippedConfig l ≤ x :=
  (xpForLevel_shipped_le_iff l hl hx).2 h

lemma shipped_not_le (l : ℕ) (hl : l ≤ 100) (x : ℝ) (hx : 0 ≤ x)
    (h : x ^ 2 < 10000 * (l : ℝ) ^ 3) : ¬ xpForLevel shippedConfig l ≤ x := by
  rw [xpForLevel_shipped_le_iff l hl hx]
  exact not_le.2 h

lemma calcLoop_succ (cfg : XpConfig) (xp : ℝ) (level fuel : ℕ) :
    calcLoop cfg xp level (fuel + 1)
      = if level < maxLevelOf cfg ∧ xpForLevel cfg (level + 1) ≤ xp then
          calcLoop cfg xp (level + 1) fuel
        else level := rfl

lemma le_calcLoop (cfg : XpConfig) (xp : ℝ) :
    ∀ fuel level, level ≤ calcLoop cfg xp level fuel := by
  intro fuel
  induction fuel with
  | zero => intro level; exact Nat.le_refl level
  | succ n ih =>
    intro level
    rw [calcLoop_succ]
    by_cases h : level < maxLevelOf cfg ∧ xpForLevel cfg (level + 1) ≤ xp
    · rw [if_pos h]
      exact Nat.le_trans (Nat.le_succ level) (ih (level + 1))
    · rw [if_neg h]

lemma calcLoop_mono_xp (cfg : XpConfig) {x y : ℝ} (hxy : x ≤ y) :
    ∀ fuel level, calcLoop cfg x level fuel ≤ calcLoop cfg y level fuel := by
  intro fuel
  induction fuel with
  | zero => intro level; exact Nat.le_refl level
  | succ n ih =>
    intro level
    rw [calcLoop_succ, calcLoop_succ]
    by_cases hx : level < maxLevelOf cfg ∧ xpForLevel cfg (level + 1) ≤ x
    · rw [if_pos hx, if_pos ⟨hx.1, hx.2.trans hxy⟩]
      exact ih (level + 1)
    · rw [if_neg hx]
      by_cases hy : level < maxLevelOf cfg ∧ xpForLevel cfg (level + 1) ≤ y
      · rw [if_pos hy]
        exact Nat.le_trans (Nat.le_succ level) (le_calcLoop cfg y n (level + 1))
      · rw [if_neg hy]

lemma calculateLevel_shipped (x : ℝ) :
    calculateLevel shippedConfig x = calcLoop shippedConfig x 0 100 := rfl

lemma calculateLevel_shipped_mono {x y : ℝ} (h : x ≤ y) :
    calculateLevel shippedConfig x ≤ calculateLevel shippedConfig y := by
  rw [calculateLevel_shipped, calculateLevel_shipped]
  exact calcLoop_mono_xp shippedConfig h 100 0

lemma calcLoop_eq_of_target (cfg : XpConfig) (xp : ℝ) (L : ℕ)
    (hstop : L = maxLevelOf cfg ∨ ¬ xpForLevel cfg (L + 1) ≤ xp) :
    ∀ fuel level, level ≤ L → L ≤ level + fuel →
      (∀ l, level < l → l ≤ L → xpForLevel cfg l ≤ xp) → L ≤ maxLevelOf cfg →
      calcLoop cfg xp level fuel = L := by
  intro fuel
  induction fuel with
  | zero =>
    intro level h1 h2 _ _
    have hz : calcLoop cfg xp level 0 = level := rfl
    omega
  | succ n ih =>
    intro level h1 h2 hall hmax
    rcases Nat.lt_or_ge level L with hlt | hge
    · rw [calcLoop_succ,
        if_pos ⟨Nat.lt_of_lt_of_le hlt hmax, hall (level + 1) (Nat.lt_succ_self level) hlt⟩]
      exact ih (level + 1) hlt (by omega) (fun l hl1 hl2 => hall l (by omega) hl2) hmax
    · have hLl : level = L := Nat.le_antisymm h1 hge
      subst hLl
      rw [calcLoop_succ, if_neg]
      intro hc
      rcases hstop with hs | hs
      · omega
      · exact hs hc.2

lemma calculateLevel_shipped_eq (x : ℝ) (_hx : 0 ≤ x) (L : ℕ) (hL : L ≤ 100)
    (hall : ∀ l, 1 ≤ l → l ≤ L → xpForLevel shippedConfig l ≤ x)
    (hstop : L = 100 ∨ ¬ xpForLevel shippedConfig (L + 1) ≤ x) :
    calculateLevel shippedConfig x = L := by
  rw [calculateLevel_shipped]
  have hstop' : L = maxLevelOf shippedConfig ∨ ¬ xpForLevel shippedConfig (L + 1) ≤ x := by
    rwa [maxLevelOf_shipped]
  exact calcLoop_eq_of_target shippedConfig x L hstop' 100 0 (Nat.zero_le L) (by omega)
    (fun l hl1 hl2 => hall l hl1 hl2) (by rw [maxLevelOf_shipped]; exact hL)

lemma calculateLevel_shipped_zero : calculateLevel shippedConfig 0 = 0 := by
  refine calculateLevel_shipped_eq 0 (le_refl 0) 0 (by norm_num) (by omega) (Or.inr ?_)
  exact shipped_not_le 1 (by norm_num) 0 (le_refl 0) (by norm_num)

lemma calculateLevel_shipped_100 : calculateLevel shippedConfig 100 = 1 := by
  refine calculateLevel_shipped_eq 100 (by norm_num) 1 (by norm_num) ?_ (Or.inr ?_)
  · intro l h1 h2
    have : l = 1 := by omega
    subst this
    exact shipped_le 1 (by norm_num) 100 (by norm_num) (by norm_num)
  · exact shipped_not_le 2 (by norm_num) 100 (by norm_num) (by norm_num)

lemma calculateLevel_shipped_850 : calculateLevel shippedConfig 850 = 4 := by
  refine calculateLevel_shipped_eq 850 (by norm_num) 4 (by norm_num) ?_ (Or.inr ?_)
  · intro l h1 h2
    interval_cases l
    · exact shipped_le 1 (by norm_num) 850 (by norm_num) (by norm_num)
    · exact shipped_le 2 (by norm_num) 850 (by norm_num) (by norm_num)
    · exact shipped_le 3 (by norm_num) 850 (by norm_num) (by norm_num)
    · exact shipped_le 4 (by norm_num) 850 (by norm_num) (by norm_num)
  · exact shipped_not_le 5 (by norm_num) 850 (by norm_num) (by norm_num)

lemma calculateLevel_shipped_300 : calculateLevel shippedConfig 300 = 2 := by
  refine calculateLevel_shipped_eq 300 (by norm_num) 2 (by norm_num) ?_ (Or.inr ?_)
  · intro l h1 h2
    interval_cases l
    · exact shipped_le 1 (by norm_num) 300 (by norm_num) (by norm_num)
    · exact shipped_le 2 (by norm_num) 300 (by norm_num) (by norm_num)
  · exact shipped_not_le 3 (by norm_num) 300 (by norm_num) (by norm_num)

lemma calculateLevel_shipped_50 : calculateLevel shippedConfig 50 = 0 := by
  refine calculateLevel_shipped_eq 50 (by norm_num) 0 (by norm_num) (by omega) (Or.inr ?_)
  exact shipped_not_le 1 (by norm_num) 50 (by norm_num) (by norm_num)

/-- A row of the per-guild users table (`guild_users` keyed by `(user_id, guild_id)`),
restricted to the fields the modelled operations read or write. -/
structure TenantUser where
  xp : ℝ
  level : ℕ
  lastMessage : ℤ
  sacrifices : ℕ
  sacrificePending : Bool

/-- The row inserted by `ensureUser` / `ensureGuildUser` for a previously unseen user:
`(user_id, xp, level, last_message) VALUES (?, 0, 0, now)` with the remaining columns
taking their schema defaults (`sacrifices 0`, `sacrifice_pending 0`). -/
def freshUser (now : ℤ) : TenantUser :=
  { xp := 0, level := 0, lastMessage := now, sacrifices := 0, sacrificePending := false }

/-- Embedding of `ensureUser`: return the existing row unchanged, or insert the
defaults. -/
def ensureUser (existing : Option TenantUser) (now : ℤ) : TenantUser :=
  match existing with
  | some u => u
  | none => freshUser now

/-- The snapshot object returned by `addXP`. -/
structure AddXPResult where
  leveledUp : Bool
  oldLevel : ℕ
  newLevel : ℕ
  currentXP : ℝ
  xpToNextLevel : ℝ

/-- Embedding of the `addXP(userId, xpAmount, guildId)` transaction of `database.js`,
acting on the addressed row: add the amount to `xp` and stamp `last_message`, re-read
the row, recompute the level, persist the level only when it increased
(`if (newLevel > oldLevel)`), and return the snapshot. -/
noncomputable def addXP (u : TenantUser) (xpAmount : ℝ) (now : ℤ) :
    TenantUser × AddXPResult :=
  let newXp := u.xp + xpAmount
  let oldLevel := u.level
  let newLevel := calculateLevel shippedConfig newXp
  let u1 : TenantUser := { u with xp := newXp, lastMessage := now }
  let u2 : TenantUser := if oldLevel < newLevel then { u1 with level := newLevel } else u1
  (u2,
    { leveledUp := decide (oldLevel < newLevel)
      oldLevel := oldLevel
      newLevel := newLevel
      currentXP := newXp
      xpToNextLevel := xpForLevel shippedConfig (newLevel + 1) - newXp })

/-- The three distinct reply objects of `sacrificeUser`, in source order: the
not-eligible reply, the needs-confirmation reply, and the success reply carrying
`sacrificeCount`. -/
inductive SacrificeReply where
  | notEligible
  | needsConfirmation
  | completed (sacrificeCount : ℕ)
deriving DecidableEq

/-- Embedding of `sacrificeUser(userId, guildId)`: the eligibility guard is the JS
comparison `userData.level < config.xp.maxLevel`, where `config.xp.maxLevel` is
`undefined` in the shipped configuration (modelled by `jsLtOpt _ none`); a pending
user is reset to `level = 1`, `xp = xpForLevel(1)` with `sacrifices + 1` and the flag
cleared; otherwise the pending flag is set. -/
noncomputable def sacrificeUser (u : TenantUser) : TenantUser × SacrificeReply :=
  if jsLtOpt u.level shippedConfig.maxLevel then (u, .notEligible)
  else if u.sacrificePending then
    ({ u with
        level := 1
        xp := xpForLevel shippedConfig 1
        sacrifices := u.sacrifices + 1
        sacrificePending := false },
     .completed (u.sacrifices + 1))
  else ({ u with sacrificePending := true }, .needsConfirmation)

/-- Embedding of `resetSacrificePending`: clear the pending flag. -/
def resetSacrificePending (u : TenantUser) : TenantUser :=
  { u with sacrificePending := false }

/-- The level-cache invariant of the spec: the stored `level` column equals the
Leveling Engine's `calculateLevel` applied to the stored `xp`. -/
noncomputable def levelInv (u : TenantUser) : Prop :=
  u.level = calculateLevel shippedConfig u.xp

lemma addXP_fst (u : TenantUser) (a : ℝ) (now : ℤ) :
    (addXP u a now).1
      = if u.level < calculateLevel shippedConfig (u.xp + a)
        then { u with
               xp := u.xp + a
               lastMessage := now
               level := calculateLevel shippedConfig (u.xp + a) }
        else { u with xp := u.xp + a, lastMessage := now } := by
  unfold addXP
  by_cases h : u.level < calculateLevel shippedConfig (u.xp + a)
  · simp only [if_pos h]
  · simp only [if_neg h]

lemma addXP_fst_xp (u : TenantUser) (a : ℝ) (now : ℤ) :
    ((addXP u a now).1).xp = u.xp + a := by
  rw [addXP_fst]
  by_cases h : u.level < calculateLevel shippedConfig (u.xp + a)
  · rw [if_pos h]
  · rw [if_neg h]

lemma addXP_fst_level (u : TenantUser) (a : ℝ) (now : ℤ) :
    ((addXP u a now).1).level
      = if u.level < calculateLevel shippedConfig (u.xp + a)
        then calculateLevel shippedConfig (u.xp + a) else u.level := by
  rw [addXP_fst]
  by_cases h : u.level < calculateLevel shippedConfig (u.xp + a)
  · rw [if_pos h, if_pos h]
  · rw [if_neg h, if_neg h]

lemma xpForLevel_shipped_one : xpForLevel shippedConfig 1 = 100 := by
  rw [xpForLevel_shipped 1 (by norm_num)]
  simp [Real.one_rpow]

lemma sacrificeUser_eq (u : TenantUser) :
    sacrificeUser u
      = if u.sacrificePending then
          ({ u with
              level := 1
              xp := xpForLevel shippedConfig 1
              sacrifices := u.sacrifices + 1
              sacrificePending := false },
           SacrificeReply.completed (u.sacrifices + 1))
        else ({ u with sacrificePending := true }, SacrificeReply.needsConfirmation) := by
  have hguard : jsLtOpt u.level shippedConfig.maxLevel = false := rfl
  unfold sacrificeUser
  rw [hguard]
  simp only [Bool.false_eq_true, if_false]

lemma xpForLevel_shipped_two : xpForLevel shippedConfig 2 = 200 * Real.sqrt 2 := by
  rw [xpForLevel_shipped_sqrt 2 (by norm_num)]
  rw [show (10000 : ℝ) * ((2 : ℕ) : ℝ) ^ 3 = 200 ^ 2 * 2 by norm_num]
  rw [Real.sqrt_mul (by positivity) 2, Real.sqrt_sq (by norm_num : (0 : ℝ) ≤ 200)]

lemma irrational_200_sqrt2 : Irrational (200 * Real.sqrt 2) := by
  have h := irrational_sqrt_two.nat_mul (show (200 : ℕ) ≠ 0 by norm_num)
  have h200 : ((200 : ℕ) : ℝ) = (200 : ℝ) := by norm_num
  rwa [h200] at h

/-- Claim C6, counterexample: the spec says the no-threshold path returns
`floor(baseXp * level^curve)`, but the source fallback `config.xp.baseXP *
Math.pow(level, config.xp.curve)` applies no floor — at `level = 2` under the shipped
configuration the returned value `200 * sqrt 2` is irrational, hence differs from the
floored integer value the claim prescribes. -/
theorem xpForLevel_two_ne_floor :
    xpForLevel shippedConfig 2
      ≠ ((⌊shippedConfig.baseXP * ((2 : ℕ) : ℝ) ^ shippedConfig.curve⌋ : ℤ) : ℝ) := by
  intro h
  rw [xpForLevel_shipped_two] at h
  exact irrational_200_sqrt2.ne_int _ h

/-- Claim C6, amended: with no threshold table in effect, `xpForLevel(level)` equals
`baseXp * level^curve` exactly (no floor is applied), for every level in
`[0, maxLevel]`. -/
theorem xpForLevel_formula_no_floor :
    ∀ cfg : XpConfig,
      cfg.useCustomThresholds = false ∨ cfg.customLevelThresholds = none →
      ∀ level : ℕ, level ≤ maxLevelOf cfg →
        xpForLevel cfg level = cfg.baseXP * (level : ℝ) ^ cfg.curve := by
  rintro ⟨bXP, cur, mL, uCT, cLT, iXP⟩ h level hl
  cases cLT with
  | none =>
    show bXP * ((min level (maxLevelOf ⟨bXP, cur, mL, uCT, none, iXP⟩) : ℕ) : ℝ) ^ cur
        = bXP * (level : ℝ) ^ cur
    rw [Nat.min_eq_left hl]
  | some tbl =>
    rcases h with h | h
    · cases uCT with
      | false =>
        show bXP * ((min level (maxLevelOf ⟨bXP, cur, mL, false, some tbl, iXP⟩) : ℕ) : ℝ) ^ cur
            = bXP * (level : ℝ) ^ cur
        rw [Nat.min_eq_left hl]
      | true => exact absurd h (by simp)
    · exact absurd h (by simp)

/-- Witness for the amended C6 theorem at the shipped configuration and `level = 2`. -/
theorem xpForLevel_formula_no_floor_witness :
    (shippedConfig.useCustomThresholds = false ∨
        shippedConfig.customLevelThresholds = none)
    ∧ (2 : ℕ) ≤ maxLevelOf shippedConfig
    ∧ xpForLevel shippedConfig 2
        = shippedConfig.baseXP * ((2 : ℕ) : ℝ) ^ shippedConfig.curve :=
  ⟨Or.inl rfl, by rw [maxLevelOf_shipped]; norm_num,
    xpForLevel_formula_no_floor shippedConfig (Or.inl rfl) 2
      (by rw [maxLevelOf_shipped]; norm_num)⟩

/-- Claim C7: under the shipped configuration (`baseXp = 100`, `curve = 1.5`, no
custom thresholds), `xpForLevel(1) = 100`, `xpForLevel(4) = 800` (which equals
`floor(100 * 4^1.5)`), and `calculateLevel(850) = 4`. -/
theorem shipped_concrete_scenario :
    xpForLevel shippedConfig 1 = 100
    ∧ xpForLevel shippedConfig 4 = 800
    ∧ (⌊(100 : ℝ) * (4 : ℝ) ^ ((3 : ℝ) / 2)⌋ : ℤ) = 800
    ∧ calculateLevel shippedConfig 850 = 4 := by
  have h4 : (100 : ℝ) * (4 : ℝ) ^ ((3 : ℝ) / 2) = 800 := by
    rw [rpow_three_halves (by norm_num : (0 : ℝ) ≤ 4),
      show (4 : ℝ) ^ 3 = (8 : ℝ) ^ 2 by norm_num,
      Real.sqrt_sq (by norm_num : (0 : ℝ) ≤ 8)]
    norm_num
  refine ⟨xpForLevel_shipped_one, ?_, ?_, calculateLevel_shipped_850⟩
  · rw [xpForLevel_shipped 4 (by norm_num)]
    rw [show ((4 : ℕ) : ℝ) = (4 : ℝ) by norm_num]
    exact h4
  · rw [h4]
    norm_num

/-- Claim C2, code bug: `sacrificeUser` guards eligibility with
`userData.level < config.xp.maxLevel`, but the shipped `config.js` defines no
`xp.maxLevel` key, so the comparison is against `undefined` and is always false in JS.
A fresh level-0 user — `Ineligible` per the spec, far below `maxLevel = 100` — is
therefore given the needs-confirmation reply and has `sacrificePending` set, instead
of the not-eligible reply with no mutation that the claim requires. -/
theorem sacrifice_ineligible_user_mutated :
    (sacrificeUser (freshUser 0)).2 = SacrificeReply.needsConfirmation
    ∧ ((sacrificeUser (freshUser 0)).1).sacrificePending = true
    ∧ (freshUser 0).level = 0
    ∧ (freshUser 0).sacrificePending = false
    ∧ maxLevelOf shippedConfig = 100 := by
  refine ⟨?_, ?_, rfl, rfl, rfl⟩
  · rw [sacrificeUser_eq]
    rfl
  · rw [sacrificeUser_eq]
    rfl

/-- Claim C3, counterexample: `addXP` persists the recomputed level only when it
increased, so calling it with a negative amount leaves the cached level above
`calculateLevel(xp)`.  Starting from a fresh user, `addXP 300` stores
`(xp = 300, level = 2)`; a subsequent `addXP (-250)` stores `xp = 50` but keeps
`level = 2`, while `calculateLevel(50) = 0`. -/
theorem addXP_negative_breaks_level_cache :
    ¬ levelInv ((addXP ((addXP (freshUser 0) 300 0).1) (-250) 0).1) := by
  have hfx : (freshUser 0).xp = 0 := rfl
  have hfl : (freshUser 0).level = 0 := rfl
  have h1arg : (freshUser 0).xp + 300 = (300 : ℝ) := by rw [hfx]; norm_num
  have h1x : ((addXP (freshUser 0) 300 0).1).xp = 300 := by
    rw [addXP_fst_xp, h1arg]
  have h1l : ((addXP (freshUser 0) 300 0).1).level = 2 := by
    rw [addXP_fst_level, h1arg, calculateLevel_shipped_300, hfl, if_pos (by norm_num)]
  have h2arg : ((addXP (freshUser 0) 300 0).1).xp + (-250) = (50 : ℝ) := by
    rw [h1x]; norm_num
  have h2x : ((addXP ((addXP (freshUser 0) 300 0).1) (-250) 0).1).xp = 50 := by
    rw [addXP_fst_xp, h2arg]
  have h2l : ((addXP ((addXP (freshUser 0) 300 0).1) (-250) 0).1).level = 2 := by
    rw [addXP_fst_level, h2arg, calculateLevel_shipped_50, h1l, if_neg (by norm_num)]
  intro h
  rw [levelInv, h2x, h2l, calculateLevel_shipped_50] at h
  exact absurd h (by norm_num)

/-- Claim C3, amended: the level cache equals `calculateLevel(xp)` in every state
reachable from user creation by `addXP` with non-negative amounts, by
`sacrificeUser`, and by `resetSacrificePending`; `addXP` with a negative amount is
excluded, since the source persists the recomputed level only when it increased. -/
theorem level_cache_invariant :
    (∀ now : ℤ, levelInv (freshUser now))
    ∧ (∀ (u : TenantUser) (a : ℝ) (now : ℤ),
        levelInv u → 0 ≤ a → levelInv ((addXP u a now).1))
    ∧ (∀ u : TenantUser, levelInv u → levelInv ((sacrificeUser u).1))
    ∧ (∀ u : TenantUser, levelInv u → levelInv (resetSacrificePending u)) := by
  refine ⟨?_, ?_, ?_, ?_⟩
  · intro now
    show (freshUser now).level = calculateLevel shippedConfig (freshUser now).xp
    have : (freshUser now).xp = 0 := rfl
    rw [this, calculateLevel_shipped_zero]
    rfl
  · intro u a now hInv ha
    have hmono : calculateLevel shippedConfig u.xp
        ≤ calculateLevel shippedConfig (u.xp + a) :=
      calculateLevel_shipped_mono (by linarith)
    show ((addXP u a now).1).level = calculateLevel shippedConfig ((addXP u a now).1).xp
    rw [addXP_fst_level, addXP_fst_xp]
    by_cases h : u.level < calculateLevel shippedConfig (u.xp + a)
    · rw [if_pos h]
    · rw [if_neg h]
      rw [levelInv] at hInv
      omega
  · intro u hInv
    rw [sacrificeUser_eq]
    by_cases hp : u.sacrificePending
    · rw [if_pos hp]
      show (1 : ℕ) = calculateLevel shippedConfig (xpForLevel shippedConfig 1)
      rw [xpForLevel_shipped_one, calculateLevel_shipped_100]
    · rw [if_neg hp]
      exact hInv
  · intro u hInv
    exact hInv

/-- Witness for the amended C3 theorem: the invariant holds for a fresh user and is
preserved by `addXP` with the non-negative amount `1`. -/
theorem level_cache_invariant_witness :
    levelInv (freshUser 0) ∧ (0 : ℝ) ≤ 1 ∧ levelInv ((addXP (freshUser 0) 1 0).1) :=
  ⟨level_cache_invariant.1 0, zero_le_one,
    level_cache_invariant.2.1 (freshUser 0) 1 0 (level_cache_invariant.1 0) zero_le_one⟩

/-- Claim C1: the `addXP` transaction increments the stored xp by the amount,
recomputes the level from the new xp, persists the level only if it increased, and
returns a snapshot with `leveledUp = (newLevel > oldLevel)`, `currentXP` equal to the
post-increment stored xp, and `xpToNextLevel = xpForLevel(newLevel + 1) - currentXP`;
iterating `addXP _ 1` n times from a fresh user leaves the stored xp equal to n. -/
theorem addXP_transaction_spec :
    (∀ (u : TenantUser) (a : ℝ) (now : ℤ),
        (addXP u a now).2.leveledUp
            = decide ((addXP u a now).2.oldLevel < (addXP u a now).2.newLevel)
        ∧ (addXP u a now).2.oldLevel = u.level
        ∧ (addXP u a now).2.newLevel = calculateLevel shippedConfig (u.xp + a)
        ∧ ((addXP u a now).1).xp = u.xp + a
        ∧ (addXP u a now).2.currentXP = ((addXP u a now).1).xp
        ∧ (addXP u a now).2.xpToNextLevel
            = xpForLevel shippedConfig ((addXP u a now).2.newLevel + 1)
                - (addXP u a now).2.currentXP
        ∧ ((addXP u a now).1).level
            = (if u.level < calculateLevel shippedConfig (u.xp + a)
               then calculateLevel shippedConfig (u.xp + a) else u.level))
    ∧ ∀ (n : ℕ) (now start : ℤ),
        ((fun u => (addXP u 1 now).1)^[n] (freshUser start)).xp = (n : ℝ) := by
  constructor
  · intro u a now
    refine ⟨rfl, rfl, rfl, addXP_fst_xp u a now, ?_, rfl, addXP_fst_level u a now⟩
    rw [addXP_fst_xp]
    rfl
  · intro n now start
    induction n with
    | zero =>
      show (freshUser start).xp = ((0 : ℕ) : ℝ)
      norm_num
      rfl
    | succ k ih =>
      rw [Function.iterate_succ_apply']
      show ((addXP ((fun u => (addXP u 1 now).1)^[k] (freshUser start)) 1 now).1).xp
          = ((k + 1 : ℕ) : ℝ)
      rw [addXP_fst_xp, ih]
      push_cast
      ring

/-- JSON values of the shapes this system stores and reads back: integers, strings,
booleans, arrays and objects (modelling the fragment of JS values that
`JSON.stringify`/`JSON.parse` round through the settings store). -/
inductive JVal where
  | jnum (n : ℤ)
  | jstr (s : String)
  | jbool (b : Bool)
  | jarr (elems : List JVal)
  | jobj (fields : List (String × JVal))

/-- String-body escaping of `JSON.stringify` restricted to the quote and backslash
characters. -/
def escapeChars : List Char → List Char
  | [] => []
  | c :: cs =>
    if c = '"' ∨ c = '\\' then '\\' :: c :: escapeChars cs else c :: escapeChars cs

/-- Serialised form of a JSON string literal. -/
def emitString (s : String) : List Char :=
  '"' :: (escapeChars s.data ++ ['"'])

mutual

/-- Serialisation of a JSON value: the character stream `JSON.stringify` produces
(no whitespace). -/
def emitVal : JVal → List Char
  | .jnum n => (toString n).data
  | .jstr s => emitString s
  | .jbool true => "true".data
  | .jbool false => "false".data
  | .jarr es => '[' :: (emitArr es ++ [']'])
  | .jobj fs => '\x7b' :: (emitFields fs ++ ['\x7d'])

/-- Comma-separated serialisation of array elements. -/
def emitArr : List JVal → List Char
  | [] => []
  | [e] => emitVal e
  | e :: e2 :: es => emitVal e ++ ',' :: emitArr (e2 :: es)

/-- Comma-separated serialisation of object fields. -/
def emitFields : List (String × JVal) → List Char
  | [] => []
  | [(k, v)] => emitString k ++ ':' :: emitVal v
  | (k, v) :: f2 :: fs => emitString k ++ ':' :: emitVal v ++ ',' :: emitFields (f2 :: fs)

end

/-- Digit accumulation for the number case of the JSON reader. -/
def parseDigits : List Char → ℕ → ℕ × List Char
  | c :: cs, acc =>
    if c.isDigit then parseDigits cs (acc * 10 + (c.toNat - 48)) else (acc, c :: cs)
  | [], acc => (acc, [])

/-- Body of a JSON string literal up to the closing quote, honouring backslash
escapes. -/
def parseStringBody : ℕ → List Char → Option (List Char × List Char)
  | 0, _ => none
  | _ + 1, [] => none
  | fuel + 1, c :: cs =>
    if c = '"' then some ([], cs)
    else if c = '\\' then
      match cs with
      | [] => none
      | e :: cs2 => (parseStringBody fuel cs2).map (fun r => (e :: r.1, r.2))
    else (parseStringBody fuel cs).map (fun r => (c :: r.1, r.2))

mutual

/-- Fuel-indexed recursive-descent reader for the JSON fragment above, modelling
`JSON.parse` on the whitespace-free documents the store contains. -/
def parseVal : ℕ → List Char → Option (JVal × List Char)
  | 0, _ => none
  | fuel + 1, cs =>
    match cs with
    | '"' :: rest => (parseStringBody (fuel + 1) rest).map (fun r => (JVal.jstr ⟨r.1⟩, r.2))
    | 't' :: 'r' :: 'u' :: 'e' :: rest => some (.jbool true, rest)
    | 'f' :: 'a' :: 'l' :: 's' :: 'e' :: rest => some (.jbool false, rest)
    | '[' :: ']' :: rest => some (.jarr [], rest)
    | '[' :: rest => parseElems fuel rest []
    | '\x7b' :: '\x7d' :: rest => some (.jobj [], rest)
    | '\x7b' :: rest => parseFields fuel rest []
    | '-' :: c :: rest =>
      if c.isDigit then
        let r := parseDigits (c :: rest) 0
        some (.jnum (-(r.1 : ℤ)), r.2)
      else none
    | c :: rest =>
      if c.isDigit then
        let r := parseDigits (c :: rest) 0
        some (.jnum (r.1 : ℤ), r.2)
      else none
    | [] => none

/-- Array elements: value, then `,` to continue or `]` to finish. -/
def parseElems : ℕ → List Char → List JVal → Option (JVal × List Char)
  | 0, _, _ => none
  | fuel + 1, cs, acc =>
    match parseVal fuel cs with
    | none => none
    | some (v, rest) =>
      match rest with
      | ',' :: more => parseElems fuel more (acc ++ [v])
      | ']' :: more => some (.jarr (acc ++ [v]), more)
      | _ => none

/-- Object fields: quoted key, `:`, value, then `,` to continue or a closing brace to
finish. -/
def parseFields : ℕ → List Char → List (String × JVal) → Option (JVal × List Char)
  | 0, _, _ => none
  | fuel + 1, cs, acc =>
    match cs with
    | '"' :: rest =>
      match parseStringBody fuel rest with
      | none => none
      | some (key, rest2) =>
        match rest2 with
        | ':' :: rest3 =>
          match parseVal fuel rest3 with
          | none => none
          | some (v, rest4) =>
            match rest4 with
            | ',' :: more => parseFields fuel more (acc ++ [(⟨key⟩, v)])
            | '\x7d' :: more => some (.jobj (acc ++ [(⟨key⟩, v)]), more)
            | _ => none
        | _ => none
    | _ => none

end

/-- Entry point modelling `JSON.parse`: succeed only if the whole text is consumed. -/
def parseJson (s : String) : Option JVal :=
  match parseVal (s.data.length + 1) s.data with
  | some (v, []) => some v
  | _ => none

/-- Values callers pass to `updateGuildSetting`: booleans, strings, and the
objects/arrays caught by the `typeof settingValue === 'object'` check. -/
inductive SettingVal where
  | sBool (b : Bool)
  | sStr (s : String)
  | sObj (fields : List (String × JVal))
  | sArr (elems : List JVal)

/-- Values `getGuildSetting` returns: a decoded boolean, a raw string, a parsed JSON
structure, or the caller-supplied `null` default. -/
inductive DecodedVal where
  | dBool (b : Bool)
  | dStr (s : String)
  | dJson (j : JVal)
  | dNull

/-- The value-to-text conversion of `updateGuildSetting`: objects and arrays are
`JSON.stringify`ed, booleans become the literal texts `"true"`/`"false"`
(`valueToStore.toString()`), and strings are stored as-is. -/
def encodeSettingVal : SettingVal → String
  | .sObj fs => ⟨emitVal (.jobj fs)⟩
  | .sArr es => ⟨emitVal (.jarr es)⟩
  | .sBool true => "true"
  | .sBool false => "false"
  | .sStr s => s

/-- The `setting_value.startsWith('{') || setting_value.startsWith('[')` test of
`getGuildSetting`. -/
def jsonShaped (s : String) : Bool :=
  match s.data with
  | c :: _ => decide (c = '\x7b' ∨ c = '[')
  | [] => false

/-- The text-to-value conversion of `getGuildSetting`: JSON-shaped text is parsed
(falling back to the raw string on failure), then the literal boolean encodings are
decoded, and anything else is returned as the raw string. -/
def decodeSettingVal (s : String) : DecodedVal :=
  if jsonShaped s then
    match parseJson s with
    | some j => .dJson j
    | none => .dStr s
  else if s = "true" then .dBool true
  else if s = "false" then .dBool false
  else .dStr s

/-- A row of the `guild_settings` table (minus the key columns). -/
structure SettingRow where
  value : String
  createdAt : ℤ
  updatedAt : ℤ

/-- The `guild_settings` table: rows keyed by `(guild_id, setting_key)`. -/
abbrev SettingsTable := List ((String × String) × SettingRow)

/-- The `INSERT ... ON CONFLICT(guild_id, setting_key) DO UPDATE` upsert: an existing
row keeps its `created_at` and gets the new value and `updated_at`; otherwise a new
row is appended. -/
def upsertRow : SettingsTable → String × String → String → ℤ → SettingsTable
  | [], gk, v, now => [(gk, ⟨v, now, now⟩)]
  | (gk0, r0) :: rest, gk, v, now =>
    if gk0 = gk then (gk0, ⟨v, r0.createdAt, now⟩) :: rest
    else (gk0, r0) :: upsertRow rest gk v now

/-- Embedding of `updateGuildSetting(guildId, settingKey, settingValue)`: encode the
value and upsert the row. -/
def updateGuildSetting (tbl : SettingsTable) (guildId settingKey : String)
    (settingValue : SettingVal) (now : ℤ) : SettingsTable :=
  upsertRow tbl (guildId, settingKey) (encodeSettingVal settingValue) now

/-- Embedding of `getGuildSetting(guildId, settingKey, defaultValue)`: decode the
stored text, or return the default when the row is missing. -/
def getGuildSetting (tbl : SettingsTable) (guildId settingKey : String)
    (defaultValue : DecodedVal) : DecodedVal :=
  match tbl.lookup (guildId, settingKey) with
  | some row => decodeSettingVal row.value
  | none => defaultValue

/-- Embedding of `deleteGuildSetting(guildId, settingKey)`: `DELETE ... WHERE` the key
matches; `success` is `result.changes > 0`. -/
def deleteGuildSetting (tbl : SettingsTable) (guildId settingKey : String) :
    SettingsTable × Bool :=
  let changes := (tbl.filter (fun r => decide (r.1 = (guildId, settingKey)))).length
  (tbl.filter (fun r => decide (¬ r.1 = (guildId, settingKey))), decide (0 < changes))

lemma lookup_upsertRow (tbl : SettingsTable) (gk : String × String) (v : String)
    (now : ℤ) :
    ∃ r : SettingRow, (upsertRow tbl gk v now).lookup gk = some r ∧ r.value = v := by
  induction tbl with
  | nil => exact ⟨⟨v, now, now⟩, by simp [upsertRow, List.lookup], rfl⟩
  | cons hd tl ih =>
    obtain ⟨gk0, r0⟩ := hd
    by_cases h : gk0 = gk
    · subst h
      refine ⟨⟨v, r0.createdAt, now⟩, ?_, rfl⟩
      simp [upsertRow, List.lookup]
    · obtain ⟨r, hr, hv⟩ := ih
      refine ⟨r, ?_, hv⟩
      have hb : (gk == gk0) = false := beq_eq_false_iff_ne.2 (Ne.symm h)
      simp only [upsertRow, if_neg h, List.lookup, hb]
      exact hr

lemma get_after_set (tbl : SettingsTable) (t k : String) (v : SettingVal)
    (d : DecodedVal) (now : ℤ) :
    getGuildSetting (updateGuildSetting tbl t k v now) t k d
      = decodeSettingVal (encodeSettingVal v) := by
  unfold getGuildSetting updateGuildSetting
  obtain ⟨r, hr, hv⟩ := lookup_upsertRow tbl (t, k) (encodeSettingVal v) now
  rw [hr]
  show decodeSettingVal r.value = decodeSettingVal (encodeSettingVal v)
  rw [hv]

/-- Claim C4: a stored object round-trips to a structurally equal object, a stored
boolean decodes back to a boolean (not the string `"true"`), and the literal strings
`"true"`/`"false"` also decode to booleans (the documented ambiguity), for every
tenant, key and default value. -/
theorem settings_round_trip :
    ∀ (tbl : SettingsTable) (t k : String) (d : DecodedVal) (now : ℤ),
      getGuildSetting (updateGuildSetting tbl t k (.sObj [("a", .jnum 1)]) now) t k d
          = .dJson (.jobj [("a", .jnum 1)])
      ∧ getGuildSetting (updateGuildSetting tbl t k (.sBool true) now) t k d
          = .dBool true
      ∧ getGuildSetting (updateGuildSetting tbl t k (.sStr "true") now) t k d
          = .dBool true
      ∧ getGuildSetting (updateGuildSetting tbl t k (.sStr "false") now) t k d
          = .dBool false := by
  intro tbl t k d now
  refine ⟨?_, ?_, ?_, ?_⟩ <;> rw [get_after_set] <;> rfl

/-- Claim C10: `deleteGuildSetting` reports `success = true` exactly when a row with
that key existed; matching rows are removed, and deleting an absent key leaves the
table unchanged. -/
theorem deleteGuildSetting_success_iff :
    ∀ (tbl : SettingsTable) (t k : String),
      ((deleteGuildSetting tbl t k).2 = true ↔ ∃ r ∈ tbl, r.1 = (t, k))
      ∧ (∀ r ∈ (deleteGuildSetting tbl t k).1, r.1 ≠ (t, k))
      ∧ ((∀ r ∈ tbl, r.1 ≠ (t, k)) → (deleteGuildSetting tbl t k).1 = tbl) := by
  intro tbl t k
  refine ⟨?_, ?_, ?_⟩
  · simp [deleteGuildSetting, List.length_pos, List.filter_eq_nil_iff]
  · intro r hr
    simp only [deleteGuildSetting, List.mem_filter, decide_eq_true_eq] at hr
    exact hr.2
  · intro h
    simp only [deleteGuildSetting]
    rw [List.filter_eq_self]
    intro a ha
    simpa using h a ha

/-- Witness for the C10 theorem: deleting from the empty table leaves it unchanged. -/
theorem deleteGuildSetting_witness :
    (∀ r ∈ ([] : SettingsTable), r.1 ≠ ("g", "k"))
    ∧ (deleteGuildSetting [] "g" "k").1 = [] :=
  ⟨by simp, (deleteGuildSetting_success_iff [] "g" "k").2.2 (by simp)⟩

/-- State seen by `ensureGuildTables`: the tables present in the database, the
in-memory `guildTablesCache`, and a ghost counter of executed DDL batches used to
state "provisions at most once". -/
structure SchemaState where
  tables : List String
  cache : List String
  ddlRuns : ℕ
deriving DecidableEq

/-- One `db.exec` of `CREATE TABLE/INDEX IF NOT EXISTS` statements: add the missing
names and bump the ghost DDL counter. -/
def execCreateIfMissing (st : SchemaState) (names : List String) : SchemaState :=
  { st with
    tables := names.foldl (fun acc n => if n ∈ acc then acc else acc ++ [n]) st.tables
    ddlRuns := st.ddlRuns + 1 }

/-- Whether a call to `ensureGuildTables` returned normally or threw. -/
inductive EnsureOutcome where
  | ok
  | threw
deriving DecidableEq

/-- The `/^\d+$/` guild-id validation. -/
def isNumericId (gid : String) : Bool :=
  !gid.data.isEmpty && gid.data.all Char.isDigit

/-- Embedding of `ensureGuildTables(guildId)` from the per-guild-table database
module: `"global"` only ensures the `settings_global` table and bypasses the cache;
a malformed id throws; a cached id returns immediately; otherwise the per-guild DDL
runs and the id is cached afterwards.  The parameter `ddlFails` injects a thrown
`db.exec` error (a JS `throw` propagates before `guildTablesCache.set` runs). -/
def ensureGuildTables (ddlFails : Bool) (st : SchemaState) (gid : String) :
    SchemaState × EnsureOutcome :=
  if gid = "global" then
    if ddlFails then (st, .threw)
    else (execCreateIfMissing st ["settings_global"], .ok)
  else if !isNumericId gid then (st, .threw)
  else if "user_".data.isPrefixOf gid.data then (st, .ok)
  else if gid ∈ st.cache then (st, .ok)
  else if ddlFails then (st, .threw)
  else
    let st1 := execCreateIfMissing st ["settings_" ++ gid]
    let st2 := execCreateIfMissing st1
      ["users_" ++ gid, "idx_" ++ gid ++ "_users_xp", "idx_" ++ gid ++ "_users_level"]
    ({ st2 with cache := st2.cache ++ [gid] }, .ok)

lemma isNumericId_not_global {gid : String} (h : isNumericId gid = true) :
    gid ≠ "global" := by
  intro he
  subst he
  simp [isNumericId] at h

lemma isNumericId_not_user {gid : String} (h : isNumericId gid = true) :
    "user_".data.isPrefixOf gid.data = false := by
  cases hd : gid.data with
  | nil => simp [isNumericId, hd] at h
  | cons c cs =>
    simp only [isNumericId, hd, Bool.and_eq_true, List.all_cons] at h
    show List.isPrefixOf ('u' :: "ser_".data) (c :: cs) = false
    have hc : c.isDigit = true := h.2.1
    by_contra hb
    rw [Bool.not_eq_false, List.isPrefixOf] at hb
    simp only [Bool.and_eq_true, beq_iff_eq] at hb
    rw [← hb.1] at hc
    simp [Char.isDigit] at hc

/-- Claim C5: for every valid numeric tenant id the first `ensureGuildTables` call
succeeds and the second call is a pure cache hit — it returns the state unchanged
(including the ghost DDL counter, so no DDL runs and storage is provisioned at most
once); the cache is never extended by a call whose DDL throws; and `"global"`
bypasses the per-tenant provisioning and the cache. -/
theorem ensureGuildTables_idempotent :
    (∀ (st : SchemaState) (gid : String), isNumericId gid = true →
        (ensureGuildTables false st gid).2 = .ok
        ∧ ensureGuildTables false ((ensureGuildTables false st gid).1) gid
            = ((ensureGuildTables false st gid).1, .ok))
    ∧ (∀ (st : SchemaState) (gid : String),
        ((ensureGuildTables true st gid).1).cache = st.cache)
    ∧ (∀ st : SchemaState,
        ((ensureGuildTables false st "global").1).cache = st.cache
        ∧ (ensureGuildTables false st "global").1
            = execCreateIfMissing st ["settings_global"]) := by
  have cache_hit : ∀ (fail : Bool) (st : SchemaState) (gid : String),
      gid ≠ "global" → isNumericId gid = true →
      "user_".data.isPrefixOf gid.data = false → gid ∈ st.cache →
      ensureGuildTables fail st gid = (st, .ok) := by
    intro fail st gid hng hnum hnu hc
    simp [ensureGuildTables, hng, hnum, hnu, hc]
  refine ⟨?_, ?_, ?_⟩
  · intro st gid hnum
    have hng : gid ≠ "global" := isNumericId_not_global hnum
    have hnu : "user_".data.isPrefixOf gid.data = false := isNumericId_not_user hnum
    have hok : (ensureGuildTables false st gid).2 = .ok := by
      by_cases hc : gid ∈ st.cache
      · rw [cache_hit false st gid hng hnum hnu hc]
      · simp [ensureGuildTables, hng, hnum, hnu, hc]
    have hmem : gid ∈ ((ensureGuildTables false st gid).1).cache := by
      by_cases hc : gid ∈ st.cache
      · rw [cache_hit false st gid hng hnum hnu hc]
        exact hc
      · simp [ensureGuildTables, hng, hnum, hnu, hc, execCreateIfMissing]
    exact ⟨hok, cache_hit false _ gid hng hnum hnu hmem⟩
  · intro st gid
    by_cases hg : gid = "global"
    · simp [ensureGuildTables, hg]
    · by_cases hnum : isNumericId gid
      · have hnu : "user_".data.isPrefixOf gid.data = false := isNumericId_not_user hnum
        by_cases hc : gid ∈ st.cache
        · simp [ensureGuildTables, hg, hnum, hnu, hc]
        · simp [ensureGuildTables, hg, hnum, hnu, hc]
      · simp [ensureGuildTables, hg, hnum]
  · intro st
    constructor
    · simp [ensureGuildTables, execCreateIfMissing]
    · simp [ensureGuildTables]

/-- Witness for the C5 theorem at the numeric tenant id `"123"` and an empty state. -/
theorem ensureGuildTables_idempotent_witness :
    isNumericId "123" = true
    ∧ (ensureGuildTables false ⟨[], [], 0⟩ "123").2 = .ok
    ∧ ensureGuildTables false ((ensureGuildTables false ⟨[], [], 0⟩ "123").1) "123"
        = ((ensureGuildTables false ⟨[], [], 0⟩ "123").1, .ok) :=
  ⟨by decide, (ensureGuildTables_idempotent.1 ⟨[], [], 0⟩ "123" (by decide)).1,
    (ensureGuildTables_idempotent.1 ⟨[], [], 0⟩ "123" (by decide)).2⟩

/-- A row of the `users` table in its legacy shape, as created by the old schema:
`user_id TEXT PRIMARY KEY` with `xp`, `level`, `last_message`, `first_seen` and
`guild_id TEXT NOT NULL DEFAULT 'global'` columns (the `guild_id` column is what the
migration heuristic detects).  The sacrifice columns referenced by the migration's
`COALESCE(sacrifices, 0)` / `COALESCE(sacrifice_pending, 0)` are modelled as nullable
options. -/
structure LegacyRow where
  userId : String
  guildId : String
  xp : ℤ
  level : ℕ
  lastMessage : ℤ
  sacrifices : Option ℕ
  sacrificePending : Option Bool
  firstSeen : ℤ
deriving DecidableEq

/-- A row of the new `guild_users` table as filled by the migration. -/
structure MigGuildRow where
  userId : String
  guildId : String
  xp : ℤ
  level : ℕ
  lastMessage : ℤ
  sacrifices : ℕ
  sacrificePending : Bool
deriving DecidableEq

/-- The store state seen by `checkAndMigrateLegacyData`: the legacy-schema heuristic
(`sqlite_master` reports a `users` table whose DDL mentions `guild_id`), the single
physical `users` table, the new `guild_users` table, and the `statistics` table
holding the completion marker.  There is only one `users` table: the new schema's
`CREATE TABLE IF NOT EXISTS users` is a no-op when the legacy `users` already exists,
so the legacy rows the migration reads and the global-user destination it inserts
into are the same table, keyed by `user_id` alone. -/
structure MigState where
  legacySchemaDetected : Bool
  users : List LegacyRow
  guildUsers : List MigGuildRow
  statistics : List (String × String)
deriving DecidableEq

/-- Embedding of `hasAlreadyMigrated`: the `statistics` row `migration_completed`
exists with value `'true'`. -/
def hasAlreadyMigrated (st : MigState) : Bool :=
  (st.statistics.lookup "migration_completed") == some "true"

/-- Distinct legacy user ids in first-occurrence order (the `SELECT DISTINCT user_id`
of the temporary migration table). -/
def distinctUserIds (rows : List LegacyRow) : List String :=
  rows.foldl (fun acc r => if r.userId ∈ acc then acc else acc ++ [r.userId]) []

/-- `MIN(first_seen)` over the legacy rows of one user (the `GROUP BY` aggregate of
the temporary migration table). -/
def minFirstSeen (rows : List LegacyRow) (uid : String) : ℤ :=
  match (rows.filter (fun r => decide (r.userId = uid))).map LegacyRow.firstSeen with
  | [] => 0
  | t :: ts => ts.foldl min t

/-- The `temp_users` table: one `(user_id, MIN(first_seen))` row per distinct user. -/
def tempUsers (rows : List LegacyRow) : List (String × ℤ) :=
  (distinctUserIds rows).map (fun uid => (uid, minFirstSeen rows uid))

/-- The primary-key check of the migration's Step-2
`INSERT INTO users (user_id, first_seen) SELECT ... FROM temp_users`: the statement
throws a UNIQUE-constraint error when an inserted `user_id` already exists in
`users`. -/
def insertConflicts (users : List LegacyRow) (temp : List (String × ℤ)) : Bool :=
  temp.any (fun t => users.any (fun r => decide (r.userId = t.1)))

/-- Embedding of `migrateLegacyData`: one transaction that deduplicates the `users`
rows into `temp_users`, re-inserts them into the same `users` table, copies per-guild
fields into `guild_users` (`COALESCE`-ing the nullable sacrifice columns), and
records the completion marker.  Because `temp_users` is built from `users` itself and
`user_id` is that table's primary key, the Step-2 insert conflicts whenever `users`
is nonempty (`insertConflicts`); the thrown error — like any other thrown statement,
injected via `fail` — reaches the `catch` block, whose `ROLLBACK` restores the state
unchanged.  On the (conflict-free) success path the inserted rows carry the schema
defaults for the unspecified columns. -/
def migrateLegacyData (fail : Bool) (st : MigState) : MigState :=
  if fail ∨ insertConflicts st.users (tempUsers st.users) then st
  else
    { st with
      users := st.users ++ (tempUsers st.users).map (fun t =>
        { userId := t.1
          guildId := "global"
          xp := 0
          level := 0
          lastMessage := 0
          sacrifices := none
          sacrificePending := none
          firstSeen := t.2 })
      guildUsers := st.guildUsers ++ st.users.map (fun r =>
        { userId := r.userId
          guildId := r.guildId
          xp := r.xp
          level := r.level
          lastMessage := r.lastMessage
          sacrifices := r.sacrifices.getD 0
          sacrificePending := r.sacrificePending.getD false })
      statistics := st.statistics ++ [("migration_completed", "true")] }

/-- Embedding of `checkAndMigrateLegacyData`: migrate only when the legacy schema is
detected, the `users` table is nonempty (`SELECT COUNT(*) FROM users`), and the
completion marker is not set. -/
def checkAndMigrateLegacyData (fail : Bool) (st : MigState) : MigState :=
  if st.legacySchemaDetected then
    if 0 < st.users.length ∧ ¬ hasAlreadyMigrated st then migrateLegacyData fail st
    else st
  else st

lemma mem_foldl_distinct :
    ∀ (rows : List LegacyRow) (acc : List String), ∀ x ∈ acc,
      x ∈ rows.foldl
        (fun acc r => if r.userId ∈ acc then acc else acc ++ [r.userId]) acc := by
  intro rows
  induction rows with
  | nil => intro acc x hx; simpa using hx
  | cons hd tl ih =>
    intro acc x hx
    rw [List.foldl_cons]
    apply ih
    by_cases h : hd.userId ∈ acc
    · rw [if_pos h]
      exact hx
    · rw [if_neg h]
      exact List.mem_append_left _ hx

lemma mem_distinctUserIds (rows : List LegacyRow) :
    ∀ r ∈ rows, r.userId ∈ distinctUserIds rows := by
  suffices hgen : ∀ (l : List LegacyRow) (acc : List String), ∀ r ∈ l,
      r.userId ∈ l.foldl
        (fun acc r => if r.userId ∈ acc then acc else acc ++ [r.userId]) acc by
    intro r hr
    exact hgen rows [] r hr
  intro l
  induction l with
  | nil => intro acc r hr; simp at hr
  | cons hd tl ih =>
    intro acc r hr
    rw [List.foldl_cons]
    rcases List.mem_cons.mp hr with heq | hr2
    · rw [heq]
      apply mem_foldl_distinct
      by_cases h : hd.userId ∈ acc
      · rw [if_pos h]
        exact h
      · rw [if_neg h]
        exact List.mem_append_right _ (by simp)
    · exact ih _ r hr2

lemma insertConflicts_forced (users : List LegacyRow) (h : 0 < users.length) :
    insertConflicts users (tempUsers users) = true := by
  cases users with
  | nil => simp at h
  | cons r rest =>
    rw [insertConflicts, List.any_eq_true]
    refine ⟨(r.userId, minFirstSeen (r :: rest) r.userId), ?_, ?_⟩
    · exact List.mem_map_of_mem _
        (mem_distinctUserIds (r :: rest) r (List.mem_cons_self r rest))
    · rw [List.any_eq_true]
      exact ⟨r, List.mem_cons_self r rest, by simp⟩

/-- Claim C9, code bug: the no-op and rollback halves of the claim hold — a startup
with the completion marker set does nothing, and every failing run is rolled back
with all tables unchanged and the marker unset — but the success path the claim
relies on does not exist in the program: whenever the migration actually runs (its
guard requires a nonempty legacy `users` table), Step 2 re-inserts existing
`user_id` primary keys into the same `users` table, so the transaction always throws
and rolls back.  Hence every startup leaves the store — in particular the marker —
completely unchanged: the migration is retried and fails on every startup and is
never marked complete, contradicting "marked complete exactly once". -/
theorem migration_never_completes :
    (∀ (fail : Bool) (st : MigState),
        hasAlreadyMigrated st = true → checkAndMigrateLegacyData fail st = st)
    ∧ (∀ st : MigState, checkAndMigrateLegacyData true st = st)
    ∧ (∀ (fail : Bool) (st : MigState), 0 < st.users.length →
        migrateLegacyData fail st = st)
    ∧ (∀ (fail : Bool) (st : MigState), checkAndMigrateLegacyData fail st = st) := by
  have hmig : ∀ (fail : Bool) (st : MigState), 0 < st.users.length →
      migrateLegacyData fail st = st := by
    intro fail st h
    unfold migrateLegacyData
    rw [if_pos (Or.inr (insertConflicts_forced st.users h))]
  have hall : ∀ (fail : Bool) (st : MigState),
      checkAndMigrateLegacyData fail st = st := by
    intro fail st
    unfold checkAndMigrateLegacyData
    by_cases hd : st.legacySchemaDetected
    · rw [if_pos hd]
      by_cases hc : 0 < st.users.length ∧ ¬ hasAlreadyMigrated st
      · rw [if_pos hc]
        exact hmig fail st hc.1
      · rw [if_neg hc]
    · rw [if_neg hd]
  exact ⟨fun fail st _ => hall fail st, fun st => hall true st, hmig, hall⟩

/-- Witness for the C9 theorem: on a concrete single-row legacy store with no marker,
even a run with no injected failure rolls back to the identical state (the forced
primary-key conflict), so the marker is never written. -/
theorem migration_never_completes_witness :
    0 < (⟨true, [⟨"u1", "g1", 5, 0, 0, none, none, 7⟩], [],
          []⟩ : MigState).users.length
    ∧ migrateLegacyData false ⟨true, [⟨"u1", "g1", 5, 0, 0, none, none, 7⟩], [], []⟩
        = ⟨true, [⟨"u1", "g1", 5, 0, 0, none, none, 7⟩], [], []⟩ :=
  ⟨by decide,
    migration_never_completes.2.2.1 false
      ⟨true, [⟨"u1", "g1", 5, 0, 0, none, none, 7⟩], [], []⟩ (by decide)⟩

/-- A row of the per-guild users table as read by `getLeaderboard`
(`SELECT user_id, xp, level`). -/
structure LbRow where
  userId : String
  xp : ℝ
  level : ℕ

/-- The `ORDER BY xp DESC` result set, modelled as a merge sort with the
"descending xp" comparator (the order among xp ties is unspecified in SQL; the sort
is one valid choice). -/
noncomputable def sortedByXpDesc (rows : List LbRow) : List LbRow :=
  rows.mergeSort (fun a b => decide (b.xp ≤ a.xp))

/-- The object returned by `getLeaderboard`. -/
structure LeaderboardResult where
  users : List (String × ℝ × ℕ)
  currentPage : ℕ
  totalPages : ℤ
  totalUsers : ℕ

/-- Embedding of `getLeaderboard(page, pageSize, guildId)`: `LIMIT pageSize OFFSET
(page-1)*pageSize` over the descending-xp result set, with
`totalPages = Math.ceil(count / pageSize)` (JS float division modelled over `ℚ`) and
`totalUsers = COUNT(*)`.  The `ℕ` subtraction in the offset agrees with SQLite, which
treats a negative `OFFSET` as zero. -/
noncomputable def getLeaderboard (rows : List LbRow) (page pageSize : ℕ) :
    LeaderboardResult :=
  let offset := (page - 1) * pageSize
  let pageRows := ((sortedByXpDesc rows).drop offset).take pageSize
  let count := rows.length
  { users := pageRows.map (fun u => (u.userId, u.xp, u.level))
    currentPage := page
    totalPages := ⌈(count : ℚ) / (pageSize : ℚ)⌉
    totalUsers := count }

lemma getLeaderboard_def (rows : List LbRow) (page pageSize : ℕ) :
    getLeaderboard rows page pageSize
      = { users := (((sortedByXpDesc rows).drop ((page - 1) * pageSize)).take
            pageSize).map (fun u => (u.userId, u.xp, u.level))
          currentPage := page
          totalPages := ⌈(rows.length : ℚ) / (pageSize : ℚ)⌉
          totalUsers := rows.length } := rfl

lemma sortedByXpDesc_pairwise (rows : List LbRow) :
    (sortedByXpDesc rows).Pairwise (fun a b => b.xp ≤ a.xp) := by
  have h := @List.sorted_mergeSort LbRow
    (fun a b : LbRow => decide (b.xp ≤ a.xp))
    (fun a b c hab hbc => by
      simp only [decide_eq_true_eq] at hab hbc ⊢
      exact hbc.trans hab)
    (fun a b => by
      simp only [Bool.or_eq_true, decide_eq_true_eq]
      exact le_total b.xp a.xp)
    rows
  exact h.imp (fun hab => by simpa using hab)

lemma sortedByXpDesc_length (rows : List LbRow) :
    (sortedByXpDesc rows).length = rows.length :=
  List.length_mergeSort rows

/-- The fifteen-user table of the pagination scenario. -/
noncomputable def demoRows : List LbRow :=
  [⟨"u1", 1, 0⟩, ⟨"u2", 2, 0⟩, ⟨"u3", 3, 0⟩, ⟨"u4", 4, 0⟩, ⟨"u5", 5, 0⟩,
   ⟨"u6", 6, 0⟩, ⟨"u7", 7, 0⟩, ⟨"u8", 8, 0⟩, ⟨"u9", 9, 0⟩, ⟨"u10", 10, 0⟩,
   ⟨"u11", 11, 0⟩, ⟨"u12", 12, 0⟩, ⟨"u13", 13, 0⟩, ⟨"u14", 14, 0⟩, ⟨"u15", 15, 0⟩]

/-- Claim C8: `getLeaderboard` returns the `(page-1)*pageSize` offset slice of the
rows ordered by descending xp (a permutation of the stored rows), with
`totalUsers = COUNT(*)`; for positive page sizes `totalPages` is
`ceil(totalUsers / pageSize)`; every page past `totalPages` yields an empty row set
(never an error, as the operation is total); and with 15 stored users, page 2 at page
size 10 returns exactly 5 rows with `totalPages = 2`. -/
theorem getLeaderboard_spec :
    (∀ (rows : List LbRow) (page pageSize : ℕ),
        (getLeaderboard rows page pageSize).users
            = (((sortedByXpDesc rows).drop ((page - 1) * pageSize)).take pageSize).map
                (fun u => (u.userId, u.xp, u.level))
        ∧ List.Perm (sortedByXpDesc rows) rows
        ∧ ((getLeaderboard rows page pageSize).users).Pairwise
            (fun a b => b.2.1 ≤ a.2.1)
        ∧ (getLeaderboard rows page pageSize).totalUsers = rows.length
        ∧ (getLeaderboard rows page pageSize).currentPage = page)
    ∧ (∀ (rows : List LbRow) (page pageSize : ℕ), 0 < pageSize →
        (getLeaderboard rows page pageSize).totalPages
            = ((rows.length + pageSize - 1) / pageSize : ℕ))
    ∧ (∀ (rows : List LbRow) (page pageSize : ℕ), 0 < pageSize →
        (getLeaderboard rows page pageSize).totalPages < (page : ℤ) →
        (getLeaderboard rows page pageSize).users = [])
    ∧ ((getLeaderboard demoRows 2 10).users).length = 5
    ∧ (getLeaderboard demoRows 2 10).totalPages = 2 := by
  refine ⟨?_, ?_, ?_, ?_, ?_⟩
  · intro rows page pageSize
    refine ⟨rfl, List.mergeSort_perm rows _, ?_, rfl, rfl⟩
    rw [getLeaderboard_def]
    show ((((sortedByXpDesc rows).drop ((page - 1) * pageSize)).take pageSize).map
        (fun u => (u.userId, u.xp, u.level))).Pairwise (fun a b => b.2.1 ≤ a.2.1)
    rw [List.pairwise_map]
    refine List.Pairwise.sublist ?_ (sortedByXpDesc_pairwise rows)
    exact (List.take_sublist _ _).trans (List.drop_sublist _ _)
  · intro rows page pageSize hp
    show ⌈(rows.length : ℚ) / (pageSize : ℚ)⌉ = ((rows.length + pageSize - 1) / pageSize : ℕ)
    have hp' : (0 : ℚ) < (pageSize : ℚ) := by exact_mod_cast hp
    have hdm := Nat.div_add_mod (rows.length + pageSize - 1) pageSize
    have hmod := Nat.mod_lt (rows.length + pageSize - 1) hp
    have hA : rows.length ≤ pageSize * ((rows.length + pageSize - 1) / pageSize) := by
      omega
    have hB : pageSize * ((rows.length + pageSize - 1) / pageSize)
        < rows.length + pageSize := by omega
    obtain ⟨q, hqdef⟩ : ∃ q, (rows.length + pageSize - 1) / pageSize = q := ⟨_, rfl⟩
    rw [hqdef] at hA hB ⊢
    have hAq : (rows.length : ℚ) ≤ (pageSize : ℚ) * (q : ℚ) := by exact_mod_cast hA
    have hBq : (pageSize : ℚ) * (q : ℚ) < (rows.length : ℚ) + (pageSize : ℚ) := by
      exact_mod_cast hB
    rw [Int.ceil_eq_iff]
    constructor
    · rw [lt_div_iff hp']
      push_cast
      nlinarith [hBq]
    · rw [div_le_iff hp']
      push_cast
      nlinarith [hAq]
  · intro rows page pageSize hp hpage
    have hpage' : ⌈(rows.length : ℚ) / (pageSize : ℚ)⌉ < (page : ℤ) := hpage
    show (((sortedByXpDesc rows).drop ((page - 1) * pageSize)).take pageSize).map
        (fun u => (u.userId, u.xp, u.level)) = []
    have hp' : (0 : ℚ) < (pageSize : ℚ) := by exact_mod_cast hp
    have hT0 : 0 ≤ ⌈(rows.length : ℚ) / (pageSize : ℚ)⌉ :=
      Int.ceil_nonneg (by positivity)
    have hEnd : (rows.length : ℚ) / (pageSize : ℚ)
        ≤ (⌈(rows.length : ℚ) / (pageSize : ℚ)⌉ : ℚ) := Int.le_ceil _
    have hle : (rows.length : ℚ)
        ≤ (⌈(rows.length : ℚ) / (pageSize : ℚ)⌉ : ℚ) * (pageSize : ℚ) := by
      rwa [div_le_iff hp'] at hEnd
    have hleZ : (rows.length : ℤ)
        ≤ ⌈(rows.length : ℚ) / (pageSize : ℚ)⌉ * (pageSize : ℤ) := by
      exact_mod_cast hle
    have hpage1 : 0 < page := by
      have : (0 : ℤ) < (page : ℤ) := lt_of_le_of_lt hT0 hpage'
      exact_mod_cast this
    have hq : ((page - 1 : ℕ) : ℤ) = (page : ℤ) - 1 := by omega
    have h2 : ⌈(rows.length : ℚ) / (pageSize : ℚ)⌉ * (pageSize : ℤ)
        ≤ ((page : ℤ) - 1) * (pageSize : ℤ) :=
      mul_le_mul_of_nonneg_right (by omega) (by positivity)
    have hoffZ : (rows.length : ℤ) ≤ ((page - 1 : ℕ) : ℤ) * (pageSize : ℤ) := by
      rw [hq]
      exact hleZ.trans h2
    have hoff : rows.length ≤ (page - 1) * pageSize := by exact_mod_cast hoffZ
    have hdrop : (sortedByXpDesc rows).drop ((page - 1) * pageSize) = [] := by
      apply List.drop_eq_nil_of_le
      rw [sortedByXpDesc_length]
      exact hoff
    rw [hdrop]
    simp
  · rw [getLeaderboard_def]
    show ((((sortedByXpDesc demoRows).drop ((2 - 1) * 10)).take 10).map
        (fun u => (u.userId, u.xp, u.level))).length = 5
    rw [List.length_map, List.length_take, List.length_drop, sortedByXpDesc_length]
    rfl
  · rw [getLeaderboard_def]
    show ⌈(demoRows.length : ℚ) / ((10 : ℕ) : ℚ)⌉ = 2
    have hlen : demoRows.length = 15 := rfl
    rw [hlen, Int.ceil_eq_iff]
    norm_num

/-- Witness for the C8 theorem: the `totalPages` formula at the concrete
fifteen-user table with page size 10. -/
theorem getLeaderboard_spec_witness :
    0 < 10
    ∧ (getLeaderboard demoRows 2 10).totalPages = ((demoRows.length + 10 - 1) / 10 : ℕ) :=
  ⟨by decide, getLeaderboard_spec.2.1 demoRows 2 10 (by decide)⟩

end VixenVera
